import Mathlib

/-!
Verification of the CAN transport (ISO 15765-2 "ISO-TP") layer and of the
Data Record base class of this repository.

The repository excerpt under verification contains the example script
`examples/can/python-can/kvaser/receive_message.py` (a caller of the CAN
transport interface) and `uds/database/data_record/abstract_data_record.py`.
The transport machine itself (addressing information, frame codec, segmenter,
reassembler, transport session) is not part of the excerpt, so the
definitions in the `Uds` namespace below that concern it are modelled from
the specification; each such definition says so in its doc comment.
`AbstractDataRecord` is embedded directly from the Python source.

Machine integers are modelled as `Nat` (Python integers are unbounded, and
CAN frame bytes are naturals below 256); byte sequences are `List Nat`.
-/

namespace Uds

/-- Modelled from the spec: the `AddressingFormat` enumeration
{Normal11bit, NormalFixed29bit, Extended11bit, Extended29bit, Mixed11bit,
Mixed29bit} (spec section 3). -/
inductive CanAddressingFormat
  | normal11bit
  | normalFixed29bit
  | extended11bit
  | extended29bit
  | mixed11bit
  | mixed29bit
deriving DecidableEq, Repr

/-- Modelled from the spec: addressing overhead in data bytes — 1 byte for
Extended/Mixed formats (target address or address extension consumes one
data byte), 0 otherwise (spec sections 3 and 4.2). -/
def addressingOverhead : CanAddressingFormat → Nat
  | .extended11bit => 1
  | .extended29bit => 1
  | .mixed11bit => 1
  | .mixed29bit => 1
  | _ => 0

/-- Classic CAN frame data length in bytes (spec section 6: up to 8 bytes for
classic CAN; the CAN-FD 64-byte variant is not exercised by the claims). -/
def frameDataLength : Nat := 8

/-- Modelled from the spec: single-frame payload capacity =
frame_data_length − addressing_overhead − 1 byte of SF PCI (spec 4.2). -/
def sfCapacity (fmt : CanAddressingFormat) : Nat :=
  frameDataLength - addressingOverhead fmt - 1

/-- Modelled from the spec: first-frame payload capacity =
frame_data_length − addressing_overhead − 2 bytes of FF PCI (spec 4.2,
no escape sequence for total lengths up to 4095). -/
def ffCapacity (fmt : CanAddressingFormat) : Nat :=
  frameDataLength - addressingOverhead fmt - 2

/-- Modelled from the spec: consecutive-frame payload capacity =
frame_data_length − addressing_overhead − 1 byte of CF PCI (spec 4.2). -/
def cfCapacity (fmt : CanAddressingFormat) : Nat :=
  frameDataLength - addressingOverhead fmt - 1

/-- Modelled from the spec: flow status of a FlowControlFrame
{ContinueToSend, Wait, Overflow} (spec section 3). -/
inductive FlowStatus
  | continueToSend
  | wait
  | overflow
deriving DecidableEq, Repr

/-- Modelled from the spec: the four ISO-TP frame roles after PCI decoding
(spec section 3, `FrameType`), with their decoded fields attached. -/
inductive CanFrame
  | single (payload : List Nat)
  | first (totalLength : Nat) (payload : List Nat)
  | consecutive (sn : Nat) (payload : List Nat)
  | flowControl (fs : FlowStatus) (blockSize : Nat) (stMin : Nat)
deriving DecidableEq, Repr

/-- Splits a byte list into chunks of `cap` bytes (the last chunk possibly
shorter), with explicit fuel so that the kernel can evaluate it; used with
`fuel = l.length`. Every produced chunk is nonempty. -/
def chunksAux (cap : Nat) : Nat → List Nat → List (List Nat)
  | 0, _ => []
  | _, [] => []
  | fuel + 1, x :: xs =>
      (x :: xs.take (cap - 1)) :: chunksAux cap fuel (xs.drop (cap - 1))

/-- Splits a byte list into chunks of `cap` bytes, the last possibly shorter. -/
def chunks (cap : Nat) (l : List Nat) : List (List Nat) :=
  chunksAux cap l.length l

/-- Modelled from the spec: the ConsecutiveFrames built from the chunk list,
with cyclically incrementing sequence numbers; the chunk at position `i`
(0-based, counting from state `i0`) is stamped with sequence number
`(i0 + i + 1) % 16` (spec 4.3: sequence numbers 0–15, wrapping; the first CF
after the FirstFrame carries sequence number 1). -/
def cfFrames : Nat → List (List Nat) → List CanFrame
  | _, [] => []
  | i, c :: cs => .consecutive ((i + 1) % 16) c :: cfFrames (i + 1) cs

/-- Modelled from the spec: `segment` (spec 4.3). If the payload fits a
SingleFrame, produce exactly one SingleFrame; otherwise one FirstFrame
carrying `total_length` and the first capacity-sized chunk, then
ConsecutiveFrames each sized to the CF capacity, the final one possibly
shorter. -/
def segment (fmt : CanAddressingFormat) (payload : List Nat) : List CanFrame :=
  if payload.length ≤ sfCapacity fmt then
    [.single payload]
  else
    .first payload.length (payload.take (ffCapacity fmt)) ::
      cfFrames 0 (chunks (cfCapacity fmt) (payload.drop (ffCapacity fmt)))

/-- Modelled from the spec: the Reassembler state machine states (spec 4.4).
`Complete` and `Error` are not persistent states: completion hands the
message over and the role returns to Idle, and an error discards the
in-progress message and also leaves the role ready to accept a fresh
FirstFrame, so both are reported on the step result instead. -/
inductive ReassemblerState
  | idle
  | receiving (total : Nat) (acc : List Nat) (lastSn : Nat) (cfCount : Nat)
deriving DecidableEq, Repr

/-- Modelled from the spec: the error taxonomy entries raised by the
Reassembler (spec section 7). -/
inductive ReassemblyError
  | sequencing
  | frameFormat
deriving DecidableEq, Repr

/-- Modelled from the spec: the receiving side's flow-control configuration
`{block_size, separation_time_min}` (spec sections 3 and 6). -/
structure ReassemblerConfig where
  blockSize : Nat
  stMin : Nat
deriving DecidableEq, Repr

/-- Result of one Reassembler step: successor state, completed payload if the
message finished, FlowControlFrame emitted back to the peer if any, and
error raised if any. -/
structure StepResult where
  state : ReassemblerState
  completed : Option (List Nat)
  fcSent : Option CanFrame
  error : Option ReassemblyError
deriving DecidableEq, Repr

/-- Modelled from the spec: one transition of the Reassembler state machine
(spec 4.4). Idle + SingleFrame completes immediately; Idle + FirstFrame
stores the fragment, answers with a FlowControlFrame (ContinueToSend,
configured block size and STmin) and moves to Receiving (a FirstFrame whose
declared total length is smaller than its own fragment is a
FrameFormatError, spec 4.2); a ConsecutiveFrame with no in-progress message
is a FrameFormatError; Receiving + ConsecutiveFrame with sequence number
`(last_seen + 1) % 16` appends the fragment, completing (trailing padding
truncated) once `total` bytes accumulated, and re-emits a FlowControlFrame
after each full block of `block_size` accepted frames; a mismatching
sequence number raises SequencingError and discards the in-progress
message; a FirstFrame during Receiving aborts the stale message and
restarts (spec 4.4 last bullet). -/
def step (cfg : ReassemblerConfig) (s : ReassemblerState) (f : CanFrame) :
    StepResult :=
  match s, f with
  | .idle, .single p => ⟨.idle, some p, none, none⟩
  | .idle, .first total frag =>
      if total < frag.length then ⟨.idle, none, none, some .frameFormat⟩
      else ⟨.receiving total frag 0 0, none,
            some (.flowControl .continueToSend cfg.blockSize cfg.stMin), none⟩
  | .idle, .consecutive _ _ => ⟨.idle, none, none, some .frameFormat⟩
  | .idle, .flowControl _ _ _ => ⟨.idle, none, none, none⟩
  | .receiving t acc lastSn cnt, .consecutive sn p =>
      if sn = (lastSn + 1) % 16 then
        if t ≤ (acc ++ p).length then
          ⟨.idle, some ((acc ++ p).take t), none, none⟩
        else if 0 < cfg.blockSize ∧ cfg.blockSize ≤ cnt + 1 then
          ⟨.receiving t (acc ++ p) sn 0, none,
           some (.flowControl .continueToSend cfg.blockSize cfg.stMin), none⟩
        else ⟨.receiving t (acc ++ p) sn (cnt + 1), none, none, none⟩
      else ⟨.idle, none, none, some .sequencing⟩
  | .receiving _ _ _ _, .first total frag =>
      if total < frag.length then ⟨.idle, none, none, some .frameFormat⟩
      else ⟨.receiving total frag 0 0, none,
            some (.flowControl .continueToSend cfg.blockSize cfg.stMin), none⟩
  | .receiving t acc lastSn cnt, .single _ =>
      ⟨.receiving t acc lastSn cnt, none, none, none⟩
  | .receiving t acc lastSn cnt, .flowControl _ _ _ =>
      ⟨.receiving t acc lastSn cnt, none, none, none⟩

/-- Aggregate result of feeding a frame sequence to a Reassembler role:
completed payloads in order, FlowControlFrames emitted, errors raised, and
the final state. -/
structure ProcResult where
  completed : List (List Nat)
  fcFrames : List CanFrame
  errors : List ReassemblyError
  final : ReassemblerState
deriving DecidableEq, Repr

/-- Modelled from the spec: feed inbound frames one at a time, in arrival
order, to one Reassembler role (spec 4.5: the intake loop feeds every
matched inbound frame to the corresponding Reassembler instance). -/
def processFrames (cfg : ReassemblerConfig) (s : ReassemblerState) :
    List CanFrame → ProcResult
  | [] => ⟨[], [], [], s⟩
  | f :: fs =>
      let r := step cfg s f
      let rest := processFrames cfg r.state fs
      ⟨r.completed.toList ++ rest.completed,
       r.fcSent.toList ++ rest.fcFrames,
       r.error.toList ++ rest.errors,
       rest.final⟩

/-- Modelled from the spec: PCI classification of a raw inbound frame's data
bytes for a Normal addressing format (spec 4.2; no addressing overhead to
strip). High nibble 0 → SingleFrame with payload length in the low nibble;
1 → FirstFrame with a 12-bit total length (32-bit escape when the 12-bit
field is 0); 2 → ConsecutiveFrame with the sequence number in the low
nibble; 3 → FlowControlFrame with flow status in the low nibble and the
next two bytes carrying block size and separation time. The classic-CAN
SingleFrame form is modelled (no CAN-FD escape). -/
def classifyFrame (data : List Nat) : Option CanFrame :=
  match data with
  | [] => none
  | b :: rest =>
      if b / 16 = 0 then some (.single (rest.take (b % 16)))
      else if b / 16 = 1 then
        match rest with
        | b2 :: rest2 =>
            if (b % 16) * 256 + b2 = 0 then
              match rest2 with
              | e1 :: e2 :: e3 :: e4 :: rest3 =>
                  some (.first (((e1 * 256 + e2) * 256 + e3) * 256 + e4) rest3)
              | _ => none
            else some (.first ((b % 16) * 256 + b2) rest2)
        | [] => none
      else if b / 16 = 2 then some (.consecutive (b % 16) rest)
      else if b / 16 = 3 then
        match rest with
        | bs :: st :: _ =>
            if b % 16 = 0 then some (.flowControl .continueToSend bs st)
            else if b % 16 = 1 then some (.flowControl .wait bs st)
            else if b % 16 = 2 then some (.flowControl .overflow bs st)
            else none
        | _ => none
      else none

/-- Modelled from the spec: one address entry of the AddressingInformation
configuration, `{can_id, target_address? / address_extension?}` (spec
section 3). For Extended formats the distinguishing first data byte is the
target address, for Mixed formats the address extension; both are carried
here as `firstByte`. Normal formats have no such byte. -/
structure AddrEntry where
  canId : Nat
  firstByte : Option Nat
deriving DecidableEq, Repr

/-- Modelled from the spec: whether the addressing format puts an
address byte in the first data byte of each frame (Extended and Mixed
formats do, Normal formats do not; spec sections 3 and 4.1). -/
def usesFirstByte : CanAddressingFormat → Bool
  | .extended11bit => true
  | .extended29bit => true
  | .mixed11bit => true
  | .mixed29bit => true
  | _ => false

/-- Modelled from the spec: the immutable AddressingInformation
configuration holding the four address entries (spec section 3). -/
structure AddressingInformation where
  format : CanAddressingFormat
  txPhysical : AddrEntry
  rxPhysical : AddrEntry
  txFunctional : AddrEntry
  rxFunctional : AddrEntry
deriving DecidableEq, Repr

/-- Modelled from the spec: an entry's fields are consistent with the
declared format — Normal formats forbid the target/address-extension byte,
Extended/Mixed formats require it (spec section 3 invariant). -/
def entryConsistent (fmt : CanAddressingFormat) (e : AddrEntry) : Bool :=
  if usesFirstByte fmt then e.firstByte.isSome else e.firstByte.isNone

/-- Modelled from the spec: two entries are uniquely distinguishable — they
differ in arbitration ID or, when the format uses one, in the
target/address-extension byte (spec 4.1). -/
def distinguishable (fmt : CanAddressingFormat) (a b : AddrEntry) : Bool :=
  if usesFirstByte fmt then a.canId != b.canId || a.firstByte != b.firstByte
  else a.canId != b.canId

/-- Modelled from the spec: `validate()` succeeds when every entry's fields
are consistent with the declared format and `rx_physical` /
`rx_functional` are uniquely distinguishable (spec 4.1; `validate` fails
with ConfigurationError otherwise). -/
def validate (ai : AddressingInformation) : Bool :=
  entryConsistent ai.format ai.txPhysical &&
  entryConsistent ai.format ai.rxPhysical &&
  entryConsistent ai.format ai.txFunctional &&
  entryConsistent ai.format ai.rxFunctional &&
  distinguishable ai.format ai.rxPhysical ai.rxFunctional

/-- Modelled from the spec: does an inbound frame, given by its arbitration
ID and data bytes, belong to this entry — the arbitration ID must match
and, for Extended/Mixed formats, the first data byte must equal the entry's
target/address-extension byte (spec 4.1). -/
def entryMatches (fmt : CanAddressingFormat) (e : AddrEntry) (canId : Nat)
    (data : List Nat) : Bool :=
  e.canId == canId &&
  (if usesFirstByte fmt then
     match data.head? with
     | some b => e.firstByte == some b
     | none => false
   else true)

/-- Modelled from the spec: the configured role an inbound frame belongs to
(spec 4.1, `matches(frame) -> Role|None`). -/
inductive Role
  | physical
  | functional
deriving DecidableEq, Repr

/-- Modelled from the spec: `matches(frame)` — which configured receiving
role (rx_physical / rx_functional / none) the inbound frame belongs to
(spec 4.1). -/
def matchesRole (ai : AddressingInformation) (canId : Nat) (data : List Nat) :
    Option Role :=
  if entryMatches ai.format ai.rxPhysical canId data then some .physical
  else if entryMatches ai.format ai.rxFunctional canId data then some .functional
  else none

/-- The AddressingInformation configured by the example script
`examples/can/python-can/kvaser/receive_message.py`: Normal 11-bit
addressing, tx_physical 0x611, rx_physical 0x612, tx_functional 0x6FF,
rx_functional 0x6FE. -/
def exampleAddressingInformation : AddressingInformation :=
  ⟨.normal11bit, ⟨0x611, none⟩, ⟨0x612, none⟩, ⟨0x6FF, none⟩, ⟨0x6FE, none⟩⟩

/-- Data bytes of `frame_1` in the example script. -/
def exampleFrame1 : List Nat := [0x10, 0x0B, 0x62, 0x10, 0x00, 0x00, 0x01, 0x02]

/-- Data bytes of `frame_2` in the example script. -/
def exampleFrame2 : List Nat := [0x21, 0x03, 0x04, 0x05, 0x06, 0x07, 0xCC, 0xCC]

/-- Modelled from the spec: errors that abort a send — the peer signalled
Overflow (`FlowControlError`) or the flow-control wait budget was exceeded
(`TimeoutError(N_Bs)`) (spec 4.3 and section 7). -/
inductive SendError
  | flowControl
  | timeoutNBs
deriving DecidableEq, Repr

/-- Modelled from the spec: `{flow_status, block_size, separation_time_min}`
as produced by the reassembling side and consumed by the segmenting side
(spec section 3). -/
structure FlowControlParameters where
  flowStatus : FlowStatus
  blockSize : Nat
  stMin : Nat
deriving DecidableEq, Repr

/-- Outcome of driving a send: the frames actually transmitted, in order,
and the error that aborted the send, if any. -/
structure SendOutcome where
  transmitted : List CanFrame
  error : Option SendError
deriving DecidableEq, Repr

/-- Modelled from the spec: the flow-control loop of a multi-frame send
(spec 4.3). After the FirstFrame, and after each block of ConsecutiveFrames,
the sender suspends until the next FlowControlFrame: ContinueToSend
transmits the next block of `block_size` pending frames (block size 0
meaning all remaining frames) and resets the wait-retry budget, Wait
re-arms the wait consuming one unit of the bounded retry budget, Overflow
fails the send with FlowControlError and transmits nothing further.
Running out of FlowControlFrames, or exhausting the Wait retry budget,
fails with TimeoutError(N_Bs). Timing (separation_time_min) is not part of
the frame-content model. -/
def runSend (maxWait : Nat) :
    Nat → List CanFrame → List CanFrame → List FlowControlParameters →
      SendOutcome
  | _, sent, [], _ => ⟨sent, none⟩
  | _, sent, _ :: _, [] => ⟨sent, some .timeoutNBs⟩
  | waitLeft, sent, pf :: pending, fc :: fcs =>
      match fc.flowStatus with
      | .overflow => ⟨sent, some .flowControl⟩
      | .wait =>
          match waitLeft with
          | 0 => ⟨sent, some .timeoutNBs⟩
          | w + 1 => runSend maxWait w sent (pf :: pending) fcs
      | .continueToSend =>
          if fc.blockSize = 0 then
            runSend maxWait maxWait (sent ++ (pf :: pending)) [] fcs
          else
            runSend maxWait maxWait (sent ++ (pf :: pending).take fc.blockSize)
              ((pf :: pending).drop fc.blockSize) fcs

/-- Modelled from the spec: `send_message` (spec 4.5), reduced to its frame
content: segment the payload, transmit the SingleFrame directly (no flow
control invoked), or transmit the FirstFrame and drive the remaining
ConsecutiveFrames through the flow-control loop fed by the
FlowControlFrames received from the peer, in arrival order. -/
def sendMessage (fmt : CanAddressingFormat) (maxWait : Nat)
    (payload : List Nat) (fcs : List FlowControlParameters) : SendOutcome :=
  match segment fmt payload with
  | [] => ⟨[], none⟩
  | ff :: rest =>
      if payload.length ≤ sfCapacity fmt then ⟨[ff], none⟩
      else runSend maxWait maxWait [ff] rest fcs

/-- A Python runtime value, as far as the embedded code needs to
distinguish values: a `str`, an `int`, `None`, a `bytes` object, or a
`float`. `isinstance(x, str)` holds exactly of the `pyStr` variant. -/
inductive PyValue
  | pyStr (s : String)
  | pyInt (n : Int)
  | pyFloat (num den : Int)
  | pyNone
  | pyBytes (bs : List Nat)
deriving DecidableEq, Repr

/-- `isinstance(v, str)` of the embedded Python value. -/
def isPyStr : PyValue → Bool
  | .pyStr _ => true
  | _ => false

/-- Python exceptions raised by the embedded code. -/
inductive PyError
  | typeError
  | attributeError
deriving DecidableEq, Repr

/-- Python's whitespace characters stripped by `str.strip()` with no
argument: space, tab, newline, carriage return, vertical tab, form feed. -/
def isPySpace (c : Char) : Bool :=
  c = ' ' || c = '\t' || c = '\n' || c = '\r' || c = '\x0b' || c = '\x0c'

/-- Python's `str.strip()`: drop leading and trailing whitespace. -/
def pyStrip (s : String) : String :=
  ⟨((s.data.dropWhile isPySpace).reverse.dropWhile isPySpace).reverse⟩

/-- The state established by `AbstractDataRecord.__init__`: the private
`__name` attribute (`abstract_data_record.py`, lines 23–29). -/
structure AbstractDataRecord where
  name : String
deriving DecidableEq, Repr

/-- `AbstractDataRecord.__init__(name)` (`abstract_data_record.py`): raises
`TypeError` unless `name` is a `str`, otherwise stores `name.strip()` in
the private `__name` attribute. -/
def initDataRecord (nameArg : PyValue) : Except PyError AbstractDataRecord :=
  match nameArg with
  | .pyStr s => .ok ⟨pyStrip s⟩
  | _ => .error .typeError

/-- The `name` property getter (`abstract_data_record.py`, lines 31–34):
returns the private `__name` attribute. -/
def nameValue (r : AbstractDataRecord) : String :=
  r.name

/-- A concrete Data Record: the base-class state plus the members a
subclass must supply — `length` (number of bits) and the abstract
`decode` / `encode` implementations, which per their signatures map a raw
value to a decoded record and a physical value to a raw value
(`abstract_data_record.py`, lines 40 onward). -/
structure DataRecordImpl extends AbstractDataRecord where
  length : Nat
  decodeImpl : Nat → PyValue
  encodeImpl : PyValue → Nat

/-- `AbstractDataRecord.max_raw_value` (`abstract_data_record.py`, lines
45–52): `(1 << self.length) - 1`. -/
def maxRawValue (r : DataRecordImpl) : Nat :=
  (1 <<< r.length) - 1

/-- An operation a caller can perform on a Data Record object: read the
`name` property, read `max_raw_value`, call `decode` or `encode`, or
attempt to assign to the `name` attribute. -/
inductive RecordOp
  | getName
  | getMaxRawValue
  | decodeOp (raw : Nat)
  | encodeOp (v : PyValue)
  | setNameAttr (v : PyValue)

/-- One operation on a Data Record object, returning the produced value and
the object state afterwards. Reads and `decode` / `encode` calls touch no
attribute; assigning to `name` raises `AttributeError`, because `name` is a
property with a getter only (`abstract_data_record.py`, lines 31–34) and
Python rejects assignment to a property that defines no setter. -/
def applyOp (r : DataRecordImpl) :
    RecordOp → Except PyError (PyValue × DataRecordImpl)
  | .getName => .ok (.pyStr (nameValue r.toAbstractDataRecord), r)
  | .getMaxRawValue => .ok (.pyInt (maxRawValue r), r)
  | .decodeOp raw => .ok (r.decodeImpl raw, r)
  | .encodeOp v => .ok (.pyInt (r.encodeImpl v), r)
  | .setNameAttr _ => .error .attributeError

/-- Run a sequence of operations on a Data Record object, threading the
object state; an operation that raises leaves the state unchanged. -/
def runOps (r : DataRecordImpl) : List RecordOp → DataRecordImpl
  | [] => r
  | op :: ops =>
      match applyOp r op with
      | .ok (_, r2) => runOps r2 ops
      | .error _ => runOps r ops

/-- The sequence numbers of the ConsecutiveFrames of a frame list, in
order. -/
def cfSeqNumbers (frames : List CanFrame) : List Nat :=
  frames.filterMap fun f =>
    match f with
    | .consecutive sn _ => some sn
    | _ => none

lemma mod16_succ (i : Nat) : (i % 16 + 1) % 16 = (i + 1) % 16 := by
  conv_rhs => rw [Nat.add_mod]

lemma cfFrames_cons (i : Nat) (c : List Nat) (cs : List (List Nat)) :
    cfFrames i (c :: cs) = .consecutive ((i + 1) % 16) c :: cfFrames (i + 1) cs :=
  rfl

lemma processFrames_nil (cfg : ReassemblerConfig) (s : ReassemblerState) :
    processFrames cfg s [] = ⟨[], [], [], s⟩ :=
  rfl

lemma processFrames_cons (cfg : ReassemblerConfig) (s : ReassemblerState)
    (f : CanFrame) (fs : List CanFrame) :
    processFrames cfg s (f :: fs) =
      ⟨(step cfg s f).completed.toList ++
         (processFrames cfg (step cfg s f).state fs).completed,
       (step cfg s f).fcSent.toList ++
         (processFrames cfg (step cfg s f).state fs).fcFrames,
       (step cfg s f).error.toList ++
         (processFrames cfg (step cfg s f).state fs).errors,
       (processFrames cfg (step cfg s f).state fs).final⟩ :=
  rfl

lemma chunksAux_flatten (cap : Nat) :
    ∀ fuel l, l.length ≤ fuel → (chunksAux cap fuel l).flatten = l := by
  intro fuel
  induction fuel with
  | zero =>
      intro l hl
      have hnil : l = [] := List.eq_nil_of_length_eq_zero (Nat.le_zero.mp hl)
      subst hnil
      rfl
  | succ n ih =>
      intro l hl
      cases l with
      | nil => rfl
      | cons x xs =>
          rw [chunksAux, List.flatten_cons, ih]
          · rw [List.cons_append, List.take_append_drop]
          · have hd : (xs.drop (cap - 1)).length = xs.length - (cap - 1) :=
              List.length_drop _ _
            simp only [List.length_cons] at hl
            omega

lemma chunks_flatten (cap : Nat) (l : List Nat) : (chunks cap l).flatten = l :=
  chunksAux_flatten cap l.length l le_rfl

lemma chunksAux_mem_ne_nil (cap : Nat) :
    ∀ fuel l c, c ∈ chunksAux cap fuel l → c ≠ [] := by
  intro fuel
  induction fuel with
  | zero => intro l c hc; simp [chunksAux] at hc
  | succ n ih =>
      intro l c hc
      cases l with
      | nil => simp [chunksAux] at hc
      | cons x xs =>
          rw [chunksAux] at hc
          rcases List.mem_cons.mp hc with h1 | h2
          · subst h1; simp
          · exact ih _ c h2

lemma chunks_mem_ne_nil (cap : Nat) (l : List Nat) :
    ∀ c ∈ chunks cap l, c ≠ [] := fun c hc =>
  chunksAux_mem_ne_nil cap l.length l c hc

lemma chunks_ne_nil (cap : Nat) (l : List Nat) (hl : l ≠ []) :
    chunks cap l ≠ [] := by
  cases l with
  | nil => exact absurd rfl hl
  | cons x xs => simp [chunks, chunksAux]

lemma ffCapacity_lt_sfCapacity (fmt : CanAddressingFormat) :
    ffCapacity fmt < sfCapacity fmt := by
  cases fmt <;> decide

/-- Invariant step lemma for reassembly of segmented consecutive frames:
starting in Receiving with `lastSn = i % 16`, an accumulated fragment
`acc`, and a declared total equal to the full message length, processing
the ConsecutiveFrames `cfFrames i cs` built from nonempty chunks `cs`
completes exactly the message `acc ++ cs.join`, raises no error, and
returns the role to Idle. Holds for every block-size configuration and
every in-block counter value. -/
lemma processFrames_cfFrames (cfg : ReassemblerConfig) :
    ∀ cs : List (List Nat), cs ≠ [] → (∀ c ∈ cs, c ≠ []) →
    ∀ i t (acc : List Nat) cnt, t = acc.length + cs.flatten.length →
    (processFrames cfg (.receiving t acc (i % 16) cnt) (cfFrames i cs)).completed
        = [acc ++ cs.flatten] ∧
    (processFrames cfg (.receiving t acc (i % 16) cnt) (cfFrames i cs)).errors
        = [] ∧
    (processFrames cfg (.receiving t acc (i % 16) cnt) (cfFrames i cs)).final
        = .idle := by
  intro cs
  induction cs with
  | nil => intro h; exact absurd rfl h
  | cons c cs2 ih =>
      intro _ hne i t acc cnt ht
      have hsn : ((i + 1) % 16 = (i % 16 + 1) % 16) := (mod16_succ i).symm
      cases cs2 with
      | nil =>
          have ht2 : t = (acc ++ c).length := by
            simp only [List.flatten_cons, List.flatten_nil, List.append_nil]
              at ht
            simp [List.length_append, ht]
          have hstep :
              step cfg (.receiving t acc (i % 16) cnt)
                  (.consecutive ((i + 1) % 16) c)
                = ⟨.idle, some ((acc ++ c).take t), none, none⟩ := by
            simp only [step]
            rw [if_pos hsn, if_pos (le_of_eq ht2)]
          rw [cfFrames_cons, processFrames_cons, hstep]
          rw [cfFrames.eq_def, processFrames_nil]
          rw [ht2, List.take_length]
          simp
      | cons c2 cs3 =>
          have hc2 : c2 ≠ [] := hne c2 (by simp)
          have hj2 : 0 < (c2 :: cs3).flatten.length := by
            cases c2 with
            | nil => exact absurd rfl hc2
            | cons y ys => simp [List.flatten_cons]
          have hlt : ¬ t ≤ (acc ++ c).length := by
            simp only [List.flatten_cons, List.length_append] at ht hj2 ⊢
            omega
          have ht3 : t = (acc ++ c).length + (c2 :: cs3).flatten.length := by
            simp only [List.flatten_cons, List.length_append] at ht ⊢
            omega
          have hne2 : ∀ d ∈ c2 :: cs3, d ≠ [] := fun d hd =>
            hne d (List.mem_cons_of_mem c hd)
          by_cases hbc : 0 < cfg.blockSize ∧ cfg.blockSize ≤ cnt + 1
          · have hstep :
                step cfg (.receiving t acc (i % 16) cnt)
                    (.consecutive ((i + 1) % 16) c)
                  = ⟨.receiving t (acc ++ c) ((i + 1) % 16) 0, none,
                     some (.flowControl .continueToSend cfg.blockSize cfg.stMin),
                     none⟩ := by
              simp only [step]
              rw [if_pos hsn, if_neg hlt, if_pos hbc]
            have hrest := ih (by simp) hne2 (i + 1) t (acc ++ c) 0 ht3
            rw [cfFrames_cons, processFrames_cons, hstep]
            simp only [Option.toList_none, Option.toList_some, List.nil_append]
            refine ⟨?_, hrest.2.1, hrest.2.2⟩
            rw [hrest.1]
            simp [List.flatten_cons, List.append_assoc]
          · have hstep :
                step cfg (.receiving t acc (i % 16) cnt)
                    (.consecutive ((i + 1) % 16) c)
                  = ⟨.receiving t (acc ++ c) ((i + 1) % 16) (cnt + 1), none,
                     none, none⟩ := by
              simp only [step]
              rw [if_pos hsn, if_neg hlt, if_neg hbc]
            have hrest := ih (by simp) hne2 (i + 1) t (acc ++ c) (cnt + 1) ht3
            rw [cfFrames_cons, processFrames_cons, hstep]
            simp only [Option.toList_none, List.nil_append]
            refine ⟨?_, hrest.2.1, hrest.2.2⟩
            rw [hrest.1]
            simp [List.flatten_cons, List.append_assoc]

/-- C1: with Normal 11-bit addressing and rx_physical.can_id = 0x612 as in
the example script, both inbound frames match the rx_physical role, the
first classifies as a FirstFrame declaring total length 11 and the second
as ConsecutiveFrame number 1, and reassembly completes exactly the 11-byte
payload 62 10 00 00 01 02 03 04 05 06 07 with the trailing padding bytes
CC CC discarded. -/
theorem c1_example_first_consecutive_reassembly :
    matchesRole exampleAddressingInformation 0x612 exampleFrame1
      = some .physical ∧
    matchesRole exampleAddressingInformation 0x612 exampleFrame2
      = some .physical ∧
    [exampleFrame1, exampleFrame2].filterMap classifyFrame =
      [.first 11 [0x62, 0x10, 0x00, 0x00, 0x01, 0x02],
       .consecutive 1 [0x03, 0x04, 0x05, 0x06, 0x07, 0xCC, 0xCC]] ∧
    (processFrames ⟨10, 0⟩ .idle
        ([exampleFrame1, exampleFrame2].filterMap classifyFrame)).completed =
      [[0x62, 0x10, 0x00, 0x00, 0x01, 0x02, 0x03, 0x04, 0x05, 0x06, 0x07]] := by
  decide

/-- C2: every payload that fits the single-frame capacity of the configured
addressing format segments into exactly one SingleFrame; reassembling that
frame yields the original payload byte-for-byte with no FlowControlFrame
emitted and no error, and the sending side transmits the SingleFrame
without consuming any FlowControlFrame. -/
theorem c2_single_frame_roundtrip (fmt : CanAddressingFormat)
    (cfg : ReassemblerConfig) (p : List Nat)
    (h : p.length ≤ sfCapacity fmt) :
    segment fmt p = [.single p] ∧
    processFrames cfg .idle (segment fmt p) = ⟨[p], [], [], .idle⟩ ∧
    ∀ maxWait fcs, sendMessage fmt maxWait p fcs = ⟨[.single p], none⟩ := by
  have hseg : segment fmt p = [.single p] := by rw [segment, if_pos h]
  refine ⟨hseg, ?_, ?_⟩
  · rw [hseg, processFrames_cons, processFrames_nil]
    simp [step]
  · intro maxWait fcs
    simp [sendMessage, hseg, h]

/-- Witness for C2 at the concrete payload [1, 2, 3] with Normal 11-bit
addressing and block size 2. -/
theorem c2_single_frame_roundtrip_witness :
    segment .normal11bit [1, 2, 3] = [.single [1, 2, 3]] ∧
    processFrames ⟨2, 0⟩ .idle (segment .normal11bit [1, 2, 3])
      = ⟨[[1, 2, 3]], [], [], .idle⟩ ∧
    ∀ maxWait fcs, sendMessage .normal11bit maxWait [1, 2, 3] fcs
      = ⟨[.single [1, 2, 3]], none⟩ :=
  c2_single_frame_roundtrip .normal11bit ⟨2, 0⟩ [1, 2, 3] (by decide)

/-- C3: every payload longer than the single-frame capacity, segmented into
a FirstFrame followed by ConsecutiveFrames, reassembles to the original
payload byte-for-byte for every positive block size, with no error, and
leaves the role back in Idle. -/
theorem c3_multi_frame_roundtrip (fmt : CanAddressingFormat)
    (cfg : ReassemblerConfig) (p : List Nat)
    (hbs : 0 < cfg.blockSize) (h : sfCapacity fmt < p.length) :
    (processFrames cfg .idle (segment fmt p)).completed = [p] ∧
    (processFrames cfg .idle (segment fmt p)).errors = [] ∧
    (processFrames cfg .idle (segment fmt p)).final = .idle := by
  have hff : ffCapacity fmt < p.length :=
    lt_trans (ffCapacity_lt_sfCapacity fmt) h
  have hseg : segment fmt p =
      .first p.length (p.take (ffCapacity fmt)) ::
        cfFrames 0 (chunks (cfCapacity fmt) (p.drop (ffCapacity fmt))) := by
    rw [segment, if_neg (by omega)]
  have hdroplen : (p.drop (ffCapacity fmt)).length = p.length - ffCapacity fmt :=
    List.length_drop _ _
  have hdrop : p.drop (ffCapacity fmt) ≠ [] := by
    intro hd
    rw [hd] at hdroplen
    simp at hdroplen
    omega
  have hcs : chunks (cfCapacity fmt) (p.drop (ffCapacity fmt)) ≠ [] :=
    chunks_ne_nil _ _ hdrop
  have hmem := chunks_mem_ne_nil (cfCapacity fmt) (p.drop (ffCapacity fmt))
  have hfraglen : (p.take (ffCapacity fmt)).length = ffCapacity fmt := by
    rw [List.length_take]
    omega
  have hnotlt : ¬ p.length < (p.take (ffCapacity fmt)).length := by
    rw [hfraglen]
    omega
  have hstep : step cfg .idle (.first p.length (p.take (ffCapacity fmt)))
      = ⟨.receiving p.length (p.take (ffCapacity fmt)) 0 0, none,
         some (.flowControl .continueToSend cfg.blockSize cfg.stMin), none⟩ := by
    simp only [step]
    rw [if_neg hnotlt]
  have ht : p.length = (p.take (ffCapacity fmt)).length +
      (chunks (cfCapacity fmt) (p.drop (ffCapacity fmt))).flatten.length := by
    rw [chunks_flatten, hfraglen, hdroplen]
    omega
  have hmain := processFrames_cfFrames cfg _ hcs hmem 0 p.length
      (p.take (ffCapacity fmt)) 0 ht
  have h016 : (0 : Nat) % 16 = 0 := rfl
  rw [h016] at hmain
  rw [hseg, processFrames_cons, hstep]
  refine ⟨?_, ?_, hmain.2.2⟩
  · simp only [Option.toList_none, List.nil_append]
    rw [hmain.1, chunks_flatten, List.take_append_drop]
  · simp only [Option.toList_none, List.nil_append]
    exact hmain.2.1

/-- Witness for C3 at the concrete payload [1, ..., 8] (8 bytes, above the
7-byte single-frame capacity of Normal 11-bit addressing) with block
size 1. -/
theorem c3_multi_frame_roundtrip_witness :
    (0 : Nat) < (1 : Nat) ∧
    sfCapacity .normal11bit < ([1, 2, 3, 4, 5, 6, 7, 8] : List Nat).length ∧
    (processFrames ⟨1, 5⟩ .idle
        (segment .normal11bit [1, 2, 3, 4, 5, 6, 7, 8])).completed
      = [[1, 2, 3, 4, 5, 6, 7, 8]] :=
  ⟨by decide, by decide,
   (c3_multi_frame_roundtrip .normal11bit ⟨1, 5⟩ [1, 2, 3, 4, 5, 6, 7, 8]
      (by decide) (by decide)).1⟩

set_option maxRecDepth 4000 in
/-- C4: a 146-byte payload under Normal 11-bit addressing needs exactly 20
ConsecutiveFrames (6 bytes in the FirstFrame, 7 per ConsecutiveFrame), and
the sequence numbers stamped on them wrap modulo 16: the observed sequence
is 1, 2, ..., 15, 0, 1, 2, 3, 4 — the i-th ConsecutiveFrame (counting from
1) carries i % 16. -/
theorem c4_sequence_numbers_wrap_mod16 :
    (cfSeqNumbers (segment .normal11bit (List.replicate 146 0x55))).length
      = 20 ∧
    cfSeqNumbers (segment .normal11bit (List.replicate 146 0x55)) =
      [1, 2, 3, 4, 5, 6, 7, 8, 9, 10, 11, 12, 13, 14, 15, 0, 1, 2, 3, 4] := by
  decide

/-- C5: in the Receiving state, a ConsecutiveFrame whose sequence number is
not (last_seen + 1) mod 16 raises SequencingError, completes nothing,
discards the in-progress message (the role state becomes Idle), and the
role then accepts a fresh FirstFrame, moving to Receiving with the new
fragment. -/
theorem c5_sequencing_error_resets_role (cfg : ReassemblerConfig) (t : Nat)
    (acc : List Nat) (lastSn cnt sn : Nat) (p : List Nat)
    (h : sn ≠ (lastSn + 1) % 16) :
    step cfg (.receiving t acc lastSn cnt) (.consecutive sn p)
      = ⟨.idle, none, none, some .sequencing⟩ ∧
    ∀ total (frag : List Nat), ¬ total < frag.length →
      step cfg .idle (.first total frag)
        = ⟨.receiving total frag 0 0, none,
           some (.flowControl .continueToSend cfg.blockSize cfg.stMin),
           none⟩ := by
  constructor
  · simp only [step]
    rw [if_neg h]
  · intro total frag hf
    simp only [step]
    rw [if_neg hf]

/-- Witness for C5: sequence number 3 arrives while 2 was expected; the
step raises SequencingError and returns to Idle, and a fresh FirstFrame is
then accepted. -/
theorem c5_sequencing_error_resets_role_witness :
    step ⟨2, 0⟩ (.receiving 11 [1] 1 0) (.consecutive 3 [9])
      = ⟨.idle, none, none, some .sequencing⟩ ∧
    step ⟨2, 0⟩ .idle (.first 5 [1, 2])
      = ⟨.receiving 5 [1, 2] 0 0, none,
         some (.flowControl .continueToSend 2 0), none⟩ := by
  have h := c5_sequencing_error_resets_role ⟨2, 0⟩ 11 [1] 1 0 3 [9] (by decide)
  exact ⟨h.1, h.2 5 [1, 2] (by decide)⟩

/-- C6: a FlowControlFrame with flow status Overflow received mid-send
fails the send with FlowControlError immediately: the transmitted frames
are exactly those sent before the Overflow, whatever flow control would
have followed; in particular a multi-frame send_message that receives
Overflow as its first flow control transmits only the FirstFrame. -/
theorem c6_overflow_fails_send :
    (∀ maxWait waitLeft (sent : List CanFrame) (pf : CanFrame)
       (pending : List CanFrame) bs st fcs,
       runSend maxWait waitLeft sent (pf :: pending)
           (⟨.overflow, bs, st⟩ :: fcs)
         = ⟨sent, some .flowControl⟩) ∧
    (∀ fmt maxWait (p : List Nat) bs st fcs, sfCapacity fmt < p.length →
       sendMessage fmt maxWait p (⟨.overflow, bs, st⟩ :: fcs)
         = ⟨[.first p.length (p.take (ffCapacity fmt))],
            some .flowControl⟩) := by
  constructor
  · intro maxWait waitLeft sent pf pending bs st fcs
    simp [runSend]
  · intro fmt maxWait p bs st fcs h
    have hff : ffCapacity fmt < p.length :=
      lt_trans (ffCapacity_lt_sfCapacity fmt) h
    have hseg : segment fmt p =
        .first p.length (p.take (ffCapacity fmt)) ::
          cfFrames 0 (chunks (cfCapacity fmt) (p.drop (ffCapacity fmt))) := by
      rw [segment, if_neg (by omega)]
    have hdroplen : (p.drop (ffCapacity fmt)).length
        = p.length - ffCapacity fmt := List.length_drop _ _
    have hdrop : p.drop (ffCapacity fmt) ≠ [] := by
      intro hd
      rw [hd] at hdroplen
      simp at hdroplen
      omega
    have hcs : chunks (cfCapacity fmt) (p.drop (ffCapacity fmt)) ≠ [] :=
      chunks_ne_nil _ _ hdrop
    obtain ⟨c, cs, hc⟩ :
        ∃ c cs, chunks (cfCapacity fmt) (p.drop (ffCapacity fmt)) = c :: cs := by
      cases hh : chunks (cfCapacity fmt) (p.drop (ffCapacity fmt)) with
      | nil => exact absurd hh hcs
      | cons c cs => exact ⟨c, cs, rfl⟩
    rw [sendMessage.eq_def, hseg, hc, cfFrames_cons]
    simp only []
    rw [if_neg (by omega)]
    simp [runSend]

/-- Witness for C6: the general overflow abort applied at a concrete
partially-sent exchange, and a concrete 8-byte send_message whose first
flow control is Overflow. -/
theorem c6_overflow_fails_send_witness :
    runSend 3 3 [.first 8 [1, 2, 3, 4, 5, 6]] (.consecutive 1 [7, 8] :: [])
        (⟨.overflow, 2, 0⟩ :: [])
      = ⟨[.first 8 [1, 2, 3, 4, 5, 6]], some .flowControl⟩ ∧
    sendMessage .normal11bit 3 [1, 2, 3, 4, 5, 6, 7, 8] [⟨.overflow, 2, 0⟩]
      = ⟨[.first 8 [1, 2, 3, 4, 5, 6]], some .flowControl⟩ :=
  ⟨c6_overflow_fails_send.1 3 3 [.first 8 [1, 2, 3, 4, 5, 6]]
      (.consecutive 1 [7, 8]) [] 2 0 [],
   by
     have h := c6_overflow_fails_send.2 .normal11bit 3 [1, 2, 3, 4, 5, 6, 7, 8]
       2 0 [] (by decide)
     simpa using h⟩

/-- C7: under any AddressingInformation configuration accepted by
validate(), no inbound frame matches both the rx_physical and the
rx_functional entry, and matchesRole returns the functional role only when
the physical entry did not match — so a frame matches at most one role. -/
theorem c7_frame_matches_at_most_one_role (ai : AddressingInformation)
    (canId : Nat) (data : List Nat) (h : validate ai = true) :
    ¬(entryMatches ai.format ai.rxPhysical canId data = true ∧
      entryMatches ai.format ai.rxFunctional canId data = true) ∧
    (matchesRole ai canId data = some .functional →
      entryMatches ai.format ai.rxPhysical canId data = false) := by
  constructor
  · rintro ⟨hp, hf⟩
    rw [validate] at h
    simp only [Bool.and_eq_true] at h
    obtain ⟨⟨⟨⟨hctp, hcrp⟩, hctf⟩, hcrf⟩, hdist⟩ := h
    rw [entryMatches] at hp hf
    simp only [Bool.and_eq_true, beq_iff_eq] at hp hf
    obtain ⟨hp1, hp2⟩ := hp
    obtain ⟨hf1, hf2⟩ := hf
    rw [distinguishable] at hdist
    cases hu : usesFirstByte ai.format with
    | false =>
        rw [hu] at hdist
        simp only [if_neg Bool.false_ne_true] at hdist
        rw [hp1, hf1] at hdist
        simp at hdist
    | true =>
        rw [hu] at hdist hp2 hf2
        simp only [if_true] at hdist hp2 hf2
        cases hd : data.head? with
        | none =>
            rw [hd] at hp2
            simp at hp2
        | some b =>
            rw [hd] at hp2 hf2
            simp only [beq_iff_eq] at hp2 hf2
            rw [hp1, hf1, hp2, hf2] at hdist
            simp at hdist
  · intro hm
    cases hpv : entryMatches ai.format ai.rxPhysical canId data with
    | false => rfl
    | true =>
        rw [matchesRole, if_pos hpv] at hm
        simp at hm

/-- Witness for C7: the example script's configuration validates, and no
frame with can_id 0x612 matches both receiving roles. -/
theorem c7_frame_matches_at_most_one_role_witness :
    validate exampleAddressingInformation = true ∧
    ¬(entryMatches exampleAddressingInformation.format
        exampleAddressingInformation.rxPhysical 0x612 exampleFrame1 = true ∧
      entryMatches exampleAddressingInformation.format
        exampleAddressingInformation.rxFunctional 0x612 exampleFrame1 = true) :=
  ⟨by decide,
   (c7_frame_matches_at_most_one_role exampleAddressingInformation 0x612
      exampleFrame1 (by decide)).1⟩

/-- C8: constructing an AbstractDataRecord raises TypeError exactly when
the provided name is not a str; for a str it succeeds and stores the name
with leading and trailing whitespace stripped, so the name property of a
record built from "  abc " returns "abc". -/
theorem c8_init_name_type_check_and_strip :
    (∀ v, isPyStr v = false → initDataRecord v = .error .typeError) ∧
    (∀ s, initDataRecord (.pyStr s) = .ok ⟨pyStrip s⟩) ∧
    pyStrip "  abc " = "abc" := by
  refine ⟨?_, fun s => rfl, by decide⟩
  intro v hv
  cases v with
  | pyStr s => simp [isPyStr] at hv
  | pyInt n => rfl
  | pyFloat a b => rfl
  | pyNone => rfl
  | pyBytes bs => rfl

/-- Witness for C8: an int name raises TypeError; the str name "  abc " is
accepted and stored stripped to "abc". -/
theorem c8_init_name_type_check_and_strip_witness :
    initDataRecord (.pyInt 7) = .error .typeError ∧
    initDataRecord (.pyStr "  abc ") = .ok ⟨"abc"⟩ :=
  ⟨c8_init_name_type_check_and_strip.1 (.pyInt 7) (by decide),
   by
     rw [c8_init_name_type_check_and_strip.2.1 "  abc "]
     rw [c8_init_name_type_check_and_strip.2.2]⟩

/-- C9: for every Data Record whose length is the nonnegative integer
r.length, max_raw_value is exactly 2 ^ r.length − 1, computed exactly
(Nat arithmetic is exact, as is Python's unbounded int arithmetic). -/
theorem c9_max_raw_value_pow (r : DataRecordImpl) :
    maxRawValue r = 2 ^ r.length - 1 := by
  rw [maxRawValue, Nat.shiftLeft_eq, one_mul]

/-- C10: the name of a Data Record is immutable after construction — over
every sequence of operations (property reads, decode, encode, attempted
attribute assignment, which raises AttributeError), the name property's
value is unchanged from the value established at construction. -/
theorem c10_name_immutable (r : DataRecordImpl) (ops : List RecordOp) :
    nameValue (runOps r ops).toAbstractDataRecord
      = nameValue r.toAbstractDataRecord := by
  induction ops generalizing r with
  | nil => rfl
  | cons op ops ih => cases op <;> exact ih r

end Uds
